import Mathlib

/-!
# Verification of the expense screenshot extraction / reconciliation core

Shallow embedding of the logic of `src/financial_screenshot.py`:
the OCR line parser (`OCRProcessor._parse_text`), the suspicion heuristic
(`ErrorCorrectionDialog._is_suspicious`), the totals recomputation and the
save-time total check (`_update_totals`, `_check_total_match`), the
correction accept path (`get_corrected_expenses`), the ledger merge in
`ExpenseApp._capture_screenshot` and the JSON serialisation in
`ExpenseApp._save_json` / `Expense.to_dict`.

Modelling conventions:
* Python `Decimal` values are embedded as exact rationals (`ℚ`); `Decimal`
  arithmetic on the sizes that occur here is exact (the context precision of
  28 significant digits only matters for `quantize`, which is modelled,
  see `quantize2`).
* Python `float` is IEEE-754 binary64; the conversion `float(Decimal)` and
  the float multiplication are correctly rounded (round to nearest, ties to
  even).  `floatApprox` models that rounding exactly for the normal range
  (subnormal underflow and overflow to infinity do not occur on the inputs
  considered here and are not modelled).
* Whitespace in `str.strip` / `str.split` and digits in `\d` / `str.isdigit`
  are modelled over their ASCII ranges; the claims only exercise ASCII text.
* Code that raises is embedded with `Option` / `Except`.
-/

/-- `Expense` dataclass: `amount: Decimal` (exact value as `ℚ`), `remark: str`. -/
structure Expense where
  amount : ℚ
  remark : String
deriving DecidableEq, Repr

/-! ## Character and string helpers (Python `str` methods, ASCII range) -/

/-- ASCII whitespace as recognised by Python `str.strip()` / `str.split()`. -/
def pyIsSpace (c : Char) : Bool :=
  c = ' ' || c = '\t' || c = '\n' || c = '\r' || c = '\x0b' || c = '\x0c'

/-- Python `str.strip()`: remove leading and trailing whitespace. -/
def pyStrip (l : List Char) : List Char :=
  ((l.dropWhile pyIsSpace).reverse.dropWhile pyIsSpace).reverse

/-- Accumulator worker for `pySplitWs`. -/
def pySplitWsAux : List Char → List Char → List (List Char)
  | [], acc => if acc.isEmpty then [] else [acc.reverse]
  | c :: rest, acc =>
    if pyIsSpace c then
      if acc.isEmpty then pySplitWsAux rest [] else acc.reverse :: pySplitWsAux rest []
    else pySplitWsAux rest (c :: acc)

/-- Python `str.split()` with no argument: maximal runs of non-whitespace. -/
def pySplitWs (l : List Char) : List (List Char) := pySplitWsAux l []

/-- Accumulator worker for `splitNl`. -/
def splitNlAux : List Char → List Char → List (List Char)
  | [], acc => [acc.reverse]
  | c :: rest, acc =>
    if c = '\n' then acc.reverse :: splitNlAux rest [] else splitNlAux rest (c :: acc)

/-- Python `text.split("\n")`: split on newline, keeping empty pieces. -/
def splitNl (l : List Char) : List (List Char) := splitNlAux l []

/-- Numeric value of an ASCII digit. -/
def digitVal (c : Char) : ℕ := c.toNat - 48

/-- Value of a list of ASCII digits read in base 10. -/
def digitsToNat (l : List Char) : ℕ := l.foldl (fun n c => 10 * n + digitVal c) 0

/-- `s.replace(",", "")` restricted to commas: drop every comma. -/
def removeCommas (l : List Char) : List Char := l.filter (fun c => c ≠ ',')

/-- Underscore removal performed by the `Decimal` string constructor. -/
def removeUnderscores (l : List Char) : List Char := l.filter (fun c => c ≠ '_')

/-! ## Decimal string parsing (`decimal.Decimal(text)`)

Python's `Decimal` constructor strips surrounding whitespace, removes
underscores, then accepts an optional sign, a coefficient
(`digits [. digits*]` or `. digits+`) and an optional exponent part
(`e`/`E`, optional sign, digits), rejecting anything else with
`InvalidOperation`.  The special values `NaN`/`Infinity` accepted by the real
constructor are not modelled: no claim exercises them (an `Infinity` input is
dropped at the subsequent `quantize` exactly like a parse failure). -/

/-- Optional leading sign; returns (isNegative, rest). -/
def parseSign : List Char → Bool × List Char
  | [] => (false, [])
  | c :: r =>
    if c = '+' then (false, r) else if c = '-' then (true, r) else (false, c :: r)

/-- Exponent part after `e`/`E`: optional sign then digits, consuming all input. -/
def parseExpPart (l : List Char) : Option ℤ :=
  let p := parseSign l
  let ds := p.2.takeWhile Char.isDigit
  if ds.isEmpty then none
  else if (p.2.dropWhile Char.isDigit).isEmpty then
    some (if p.1 then -(digitsToNat ds : ℤ) else (digitsToNat ds : ℤ))
  else none

/-- Coefficient and exponent on an already cleaned (stripped, underscore-free)
character list. -/
def parseDecimalCore (l : List Char) : Option ℚ :=
  let p := parseSign l
  let ip := p.2.takeWhile Char.isDigit
  let r2 := p.2.dropWhile Char.isDigit
  let fr : List Char × List Char :=
    match r2 with
    | '.' :: t => (t.takeWhile Char.isDigit, t.dropWhile Char.isDigit)
    | _ => ([], r2)
  if ip.isEmpty && fr.1.isEmpty then none
  else
    let coeff : ℚ :=
      (if p.1 then -1 else 1) * ((digitsToNat (ip ++ fr.1) : ℚ) / 10 ^ fr.1.length)
    match fr.2 with
    | [] => some coeff
    | c :: t =>
      if c = 'e' || c = 'E' then
        (parseExpPart t).map (fun ex => coeff * (10 : ℚ) ^ ex)
      else none

/-- `Decimal(text)` on a string, as an exact rational; `none` models
`InvalidOperation`. -/
def parseDecimal (raw : List Char) : Option ℚ :=
  parseDecimalCore (removeUnderscores (pyStrip raw))

/-! ## Rounding: `quantize(Decimal("0.01"))` and binary64 conversion -/

/-- Round a rational to the nearest integer, ties to even
(the `ROUND_HALF_EVEN` default of `decimal` and the IEEE-754 default). -/
def rhe (x : ℚ) : ℤ :=
  let f := ⌊x⌋
  if x - f < 1 / 2 then f
  else if 1 / 2 < x - f then f + 1
  else if f % 2 = 0 then f else f + 1

/-- `d.quantize(Decimal("0.01"))`: round to cents, ties to even; fails with
`InvalidOperation` (modelled as `none`) when the resulting coefficient would
exceed the context precision of 28 significant digits. -/
def quantize2 (q : ℚ) : Option ℚ :=
  let c := rhe (q * 100)
  if c.natAbs < 10 ^ 28 then some ((c : ℚ) / 100) else none

/-- Number of binary digits of `n`, fuel-driven so that it reduces in the
kernel (`bitsAux n n` always has enough fuel since `Nat.log2 n ≤ n`). -/
def bitsAux : ℕ → ℕ → ℕ
  | 0, _ => 0
  | fuel + 1, n => if n ≤ 1 then n else bitsAux fuel (n / 2) + 1

/-- Number of binary digits of a natural number (`natBits 0 = 0`). -/
def natBits (n : ℕ) : ℕ := bitsAux n n

/-- `⌊log₂ q⌋` for a positive rational, computed from the bit lengths of
numerator and denominator. -/
def ilog2 (q : ℚ) : ℤ :=
  let e1 : ℤ := (natBits q.num.natAbs : ℤ) - (natBits q.den : ℤ)
  if (2 : ℚ) ^ e1 ≤ q then e1 else e1 - 1

/-- Nearest binary64 value to a positive rational: round the significand
`q / 2^(e-52)` to the nearest integer, ties to even. -/
def floatApproxPos (q : ℚ) : ℚ :=
  let e := ilog2 q
  (rhe (q * (2 : ℚ) ^ ((52 : ℤ) - e)) : ℚ) * (2 : ℚ) ^ (e - (52 : ℤ))

/-- `float(d)` for a `Decimal` value `d`: the correctly rounded IEEE-754
binary64 approximation (normal range; see the module comment). -/
def floatApprox (q : ℚ) : ℚ :=
  if q = 0 then 0
  else if q < 0 then -floatApproxPos (-q)
  else floatApproxPos q

/-- Python `int()` applied to a float value: truncation toward zero. -/
def pyTrunc (q : ℚ) : ℤ := if q < 0 then -⌊-q⌋ else ⌊q⌋

/-! ## `OCRProcessor._parse_text` -/

/-- The regex `^(\d+\.?\d*)` applied to a token: the matched group, when the
token starts with a digit — the maximal digit run, then an optional dot, then
a further maximal digit run. -/
def matchAmount (t : List Char) : Option (List Char) :=
  match t with
  | [] => none
  | c :: _ =>
    if c.isDigit then
      let ds := t.takeWhile Char.isDigit
      match t.dropWhile Char.isDigit with
      | '.' :: r2 => some (ds ++ '.' :: r2.takeWhile Char.isDigit)
      | _ => some ds
    else none

/-- The sentinel remark used when the last token is not a plausible
reference code. -/
def noRemark : String := "No Remark Available"

/-- One iteration of the loop in `OCRProcessor._parse_text`: blank lines are
skipped; the first whitespace token must start with a numeric match; the
match (commas removed) is parsed as a `Decimal` and quantized to cents (a
failure skips the line); the remark is the last token when it is all digits
of length ≤ 6, else the sentinel. -/
def parseLine (line : List Char) : Option Expense :=
  if (pyStrip line).isEmpty then none
  else
    match pySplitWs line with
    | [] => none
    | p0 :: ps =>
      match matchAmount p0 with
      | none => none
      | some g =>
        match parseDecimal (removeCommas g) with
        | none => none
        | some v =>
          match quantize2 v with
          | none => none
          | some q =>
            let lastTok := (p0 :: ps).getLastD []
            some ⟨q,
              if !lastTok.isEmpty && lastTok.all Char.isDigit
                  && decide (lastTok.length ≤ 6) then
                String.mk lastTok
              else noRemark⟩

/-- The accumulation loop of `_parse_text` over the split lines. -/
def parseLines : List (List Char) → List Expense
  | [] => []
  | l :: ls =>
    match parseLine l with
    | some e => e :: parseLines ls
    | none => parseLines ls

/-- `OCRProcessor._parse_text`: split the OCR text on newlines and run the
per-line parser, collecting the produced records in order. -/
def parse_text (s : String) : List Expense := parseLines (splitNl s.data)

/-! ## `ErrorCorrectionDialog._is_suspicious` -/

/-- `ErrorCorrectionDialog._is_suspicious`: the code converts the `Decimal`
amount to a binary float, computes `cents = int((amount % 1) * 100)` in float
arithmetic (`%` is exact here for the non-negative amounts the dialog
receives; the multiplication is correctly rounded; `int` truncates), and
flags the record when the amount is integral, is below 10, or the computed
cents value is outside `[0, 50, 95, 99]` and below 90. -/
def is_suspicious (e : Expense) : Bool :=
  let a := floatApprox e.amount
  let cents := pyTrunc (floatApprox ((a - (⌊a⌋ : ℚ)) * 100))
  decide (a = (pyTrunc a : ℚ)) || decide (a < 10)
    || (decide (cents ∉ ([0, 50, 95, 99] : List ℤ)) && decide (cents < 90))

/-- The suspicion rule as the specification states it, over the exact cent
count `c` of a non-negative two-decimal amount (`amount = c / 100`): integral
amount, amount below 10.00, or exact cent component outside the allow-list
and below 90.  Stated from the spec's words for comparison with
`is_suspicious`. -/
def suspiciousSpecRule (c : ℤ) : Bool :=
  decide (c % 100 = 0) || decide (c < 1000)
    || (decide (c % 100 ∉ ([0, 50, 95, 99] : List ℤ)) && decide (c % 100 < 90))

/-! ## Totals: `_update_totals` and `_check_total_match` -/

/-- Sum of the amount-column cell texts, left to right; the first cell whose
text `Decimal` rejects aborts the computation with the exception. -/
def sumCells : List (List Char) → Except Unit ℚ
  | [] => .ok 0
  | c :: rest =>
    match parseDecimal c with
    | none => .error ()
    | some v =>
      match sumCells rest with
      | .error e => .error e
      | .ok t => .ok (v + t)

/-- What `_update_totals` writes to the dialog: the value rendered in the
current-total label, the value in the difference label (`none` = "N/A" or not
updated), whether the difference label is coloured green, and whether the
error branch printed to the console. -/
structure TotalsView where
  currentShown : ℚ
  differenceShown : Option ℚ
  greenShown : Option Bool
  errorPrinted : Bool
deriving DecidableEq, Repr

/-- `ErrorCorrectionDialog._update_totals`: recompute the running total from
the amount cells; on success show the total and, when an expected total is
set, the difference, coloured green exactly when `|difference| < 0.01`.  Any
exception is caught: an error line is printed and the labels are reset to
`$0.00` / `N/A`. -/
def update_totals (expected : Option ℚ) (cells : List (List Char)) : TotalsView :=
  match sumCells cells with
  | .error _ => ⟨0, none, none, true⟩
  | .ok t =>
    match expected with
    | none => ⟨t, none, none, false⟩
    | some exp => ⟨t, some (exp - t), some (decide (|exp - t| < 1 / 100)), false⟩

/-- Outcome of the save-button handler when no exception occurs. -/
inductive SaveOutcome
  | silentAccept
  | mismatchPrompt
deriving DecidableEq, Repr

/-- `ErrorCorrectionDialog._check_total_match`: with no expected total the
dialog accepts at once.  Otherwise the cell texts are re-parsed without any
exception handling (a parse failure propagates), and the confirmation prompt
is shown only when `|expected - total| > 0.01`; at a difference of exactly
`0.01` or less the dialog accepts silently. -/
def check_total_match (expected : Option ℚ) (cells : List (List Char)) :
    Except Unit SaveOutcome :=
  match expected with
  | none => .ok .silentAccept
  | some exp =>
    match sumCells cells with
    | .error e => .error e
    | .ok t =>
      if 1 / 100 < |exp - t| then .ok .mismatchPrompt else .ok .silentAccept

/-! ## `ErrorCorrectionDialog.get_corrected_expenses` -/

/-- `get_corrected_expenses`: each table row is (amount cell text, remark
cell text); a row whose amount text fails `Decimal` parsing or cent
quantization is skipped (`continue`), the others produce records in order. -/
def get_corrected_expenses : List (List Char × String) → List Expense
  | [] => []
  | (atext, rtext) :: rest =>
    match (parseDecimal atext).bind quantize2 with
    | some q => ⟨q, rtext⟩ :: get_corrected_expenses rest
    | none => get_corrected_expenses rest

/-! ## Ledger merge in `ExpenseApp._capture_screenshot` -/

/-- Result of `dialog.exec()`. -/
inductive DialogResult
  | accepted
  | rejected
deriving DecidableEq, Repr

/-- The merge step of `ExpenseApp._capture_screenshot`: when the dialog was
accepted, `self.expenses.extend(corrected_expenses)` appends the corrected
records to the ledger; otherwise the ledger is left untouched. -/
def capture_merge (ledger : List Expense) (res : DialogResult)
    (rows : List (List Char × String)) : List Expense :=
  match res with
  | .accepted => ledger ++ get_corrected_expenses rows
  | .rejected => ledger

/-! ## Serialisation: `Expense.to_dict` and `ExpenseApp._save_json` -/

/-- JSON values, as far as the produced document needs them. -/
inductive JValue
  | num (q : ℚ)
  | str (s : String)
  | arr (elems : List JValue)
  | obj (fields : List (String × JValue))

/-- `Expense.to_dict`: `{"amount": float(self.amount), "remark": self.remark}`;
the float conversion is the binary64 approximation of the decimal amount. -/
def to_dict (e : Expense) : JValue :=
  .obj [("amount", .num (floatApprox e.amount)), ("remark", .str e.remark)]

/-- The sort in `_save_json`: `sorted(self.expenses, key=lambda x: x.amount)`,
Python's stable ascending sort (insertion sort is stable, hence produces the
same list). -/
def sortExpenses (l : List Expense) : List Expense :=
  l.insertionSort (fun a b => a.amount ≤ b.amount)

/-- `ExpenseApp._save_json`: with an empty ledger nothing is written
(`none`); otherwise the document is the single key `"expenses"` holding the
amount-sorted records serialised by `to_dict`. -/
def save_json (ledger : List Expense) : Option JValue :=
  if ledger.isEmpty then none
  else some (.obj [("expenses", .arr ((sortExpenses ledger).map to_dict))])

/-! ## General lemmas about the embedding -/

/-- The extraction loop is the `filterMap` of the per-line parser. -/
theorem parseLines_eq_filterMap (ls : List (List Char)) :
    parseLines ls = ls.filterMap parseLine := by
  induction ls with
  | nil => rfl
  | cons l ls ih =>
    simp only [parseLines, List.filterMap_cons]
    cases parseLine l <;> simp [ih]

/-- A line that strips to nothing produces no record. -/
theorem parseLine_of_blank {l : List Char} (h : pyStrip l = []) :
    parseLine l = none := by
  simp [parseLine, h]

/-- A line whose first token has no leading numeric match produces no
record. -/
theorem parseLine_of_no_match {l p0 : List Char} {ps : List (List Char)}
    (hs : pySplitWs l = p0 :: ps) (hm : matchAmount p0 = none) :
    parseLine l = none := by
  unfold parseLine
  split
  · rfl
  · rw [hs]
    simp [hm]

/-- Every character of every piece produced by `splitNlAux` comes from the
input or the accumulator. -/
theorem splitNlAux_allWs : ∀ (l acc : List Char),
    (∀ c ∈ l, pyIsSpace c = true) → (∀ c ∈ acc, pyIsSpace c = true) →
    ∀ line ∈ splitNlAux l acc, ∀ c ∈ line, pyIsSpace c = true := by
  intro l
  induction l with
  | nil =>
    intro acc _ hacc line hline c hc
    simp only [splitNlAux, List.mem_singleton] at hline
    subst hline
    exact hacc c (List.mem_reverse.mp hc)
  | cons d rest ih =>
    intro acc hl hacc line hline c hc
    simp only [splitNlAux] at hline
    by_cases hd : d = '\n'
    · rw [if_pos hd] at hline
      rcases List.mem_cons.mp hline with h | h
      · subst h
        exact hacc c (List.mem_reverse.mp hc)
      · exact ih [] (fun x hx => hl x (List.mem_cons_of_mem d hx))
          (by simp) line h c hc
    · rw [if_neg hd] at hline
      exact ih (d :: acc) (fun x hx => hl x (List.mem_cons_of_mem d hx))
        (by intro x hx
            rcases List.mem_cons.mp hx with h | h
            · rw [h]; exact hl d (List.mem_cons_self d rest)
            · exact hacc x h)
        line hline c hc

/-- `dropWhile` consumes a list all of whose elements satisfy the
predicate. -/
theorem dropWhile_eq_nil_of_all {p : Char → Bool} :
    ∀ {l : List Char}, (∀ c ∈ l, p c = true) → l.dropWhile p = [] := by
  intro l
  induction l with
  | nil => intro _; rfl
  | cons c t ih =>
    intro h
    rw [List.dropWhile_cons_of_pos (h c (List.mem_cons_self c t))]
    exact ih (fun x hx => h x (List.mem_cons_of_mem c hx))

/-- Stripping an all-whitespace character list gives the empty list. -/
theorem pyStrip_of_allWs {l : List Char} (h : ∀ c ∈ l, pyIsSpace c = true) :
    pyStrip l = [] := by
  unfold pyStrip
  rw [dropWhile_eq_nil_of_all h]
  rfl

/-- `dropWhile` keeps a list whose elements all falsify the predicate. -/
theorem dropWhile_eq_self_of_none {p : Char → Bool} {l : List Char}
    (h : ∀ c ∈ l, p c = false) : l.dropWhile p = l := by
  cases l with
  | nil => rfl
  | cons c t =>
    exact List.dropWhile_cons_of_neg
      (by rw [h c (List.mem_cons_self c t)]; exact Bool.false_ne_true)

/-- Stripping changes nothing when no character is whitespace. -/
theorem pyStrip_of_noWs {l : List Char} (h : ∀ c ∈ l, pyIsSpace c = false) :
    pyStrip l = l := by
  unfold pyStrip
  rw [dropWhile_eq_self_of_none h,
    dropWhile_eq_self_of_none (fun c hc => h c (List.mem_reverse.mp hc)),
    List.reverse_reverse]

/-! ## C1 -/

set_option maxRecDepth 8000 in
/-- C1: the claim is violated by the code: for the two-decimal amount 10.01
the code's float-based cent computation truncates
`(float(10.01) % 1) * 100 = 0.999…` to `0`, which is on the allow-list, so
`_is_suspicious` returns `False`; the exact cent component demanded by the
claim is `1`, which is not allow-listed and below 90, so the claim requires
`True`. -/
theorem c1_float_cents_code_bug :
    is_suspicious ⟨(1001 : ℚ) / 100, "Lunch"⟩ = false ∧
    suspiciousSpecRule 1001 = true := by
  constructor
  · with_unfolding_all rfl
  · decide

/-! ## C2 -/

/-- C2 counterexample: with expected total 500.00 and a single record 499.99
the save-time check accepts silently (no confirmation prompt), although the
difference 0.01 is not strictly below the 0.01 tolerance, so the claimed
match test is false there. -/
theorem c2_exact_tolerance_counterexample :
    check_total_match (some 500) ["499.99".data] = .ok .silentAccept ∧
    sumCells ["499.99".data] = .ok ((49999 : ℚ) / 100) ∧
    ¬ (|(500 : ℚ) - 49999 / 100| < 1 / 100) := by
  refine ⟨by with_unfolding_all rfl, by with_unfolding_all rfl, ?_⟩
  rw [show (500 : ℚ) - 49999 / 100 = 1 / 100 by norm_num,
    abs_of_pos (show (0 : ℚ) < 1 / 100 by norm_num)]
  exact lt_irrefl _

/-- C2 (amended): when no expected total is set the save handler accepts
unconditionally; with an expected total it prompts for confirmation exactly
when `|expected - total| > 0.01` (so a difference of exactly 0.01 is accepted
silently), while the totals display colours the difference green exactly when
`|expected - total| < 0.01`. -/
theorem c2_tolerance_semantics (exp t : ℚ) (cells : List (List Char))
    (h : sumCells cells = .ok t) :
    check_total_match none cells = .ok .silentAccept ∧
    check_total_match (some exp) cells =
      .ok (if 1 / 100 < |exp - t| then .mismatchPrompt else .silentAccept) ∧
    (update_totals (some exp) cells).greenShown =
      some (decide (|exp - t| < 1 / 100)) := by
  refine ⟨rfl, ?_, ?_⟩
  · simp only [check_total_match, h]
    split <;> rfl
  · simp only [update_totals, h]

/-- C2 witness: the amended semantics applied to the concrete 500.00 vs
499.99 scenario. -/
theorem c2_tolerance_semantics_witness :
    check_total_match (some 500) ["499.99".data] =
      .ok (if 1 / 100 < |(500 : ℚ) - 49999 / 100| then .mismatchPrompt
        else .silentAccept) :=
  (c2_tolerance_semantics 500 ((49999 : ℚ) / 100) ["499.99".data]
    (by with_unfolding_all rfl)).2.1

/-! ## C3 -/

/-- C3: the claim is violated by the code: the amount regex stops at the
comma, so the line `"1,234.56"` yields the amount 1.00 (the dead
`.replace(",", "")` never sees a comma), not the denoted value 1234.56. -/
theorem c3_comma_not_stripped :
    parse_text "1,234.56" = [⟨1, noRemark⟩] ∧ ((1 : ℚ) ≠ 123456 / 100) := by
  refine ⟨by with_unfolding_all rfl, by norm_num⟩

/-! ## C4 -/

/-- C4 counterexample: a record whose amount was 51.34 and is edited to
`"abc"` is dropped from the accepted output (the prior value is not
retained), and the save-time total check raises on the same cell text
instead of containing the failure. -/
theorem c4_dropped_edit_counterexample :
    get_corrected_expenses [("abc".data, "Lunch")] = [] ∧
    get_corrected_expenses [("abc".data, "Lunch")] ≠ [⟨(5134 : ℚ) / 100, "Lunch"⟩] ∧
    check_total_match (some 500) ["abc".data] = .error () := by
  refine ⟨by with_unfolding_all rfl, ?_, by with_unfolding_all rfl⟩
  rw [show get_corrected_expenses [("abc".data, "Lunch")] = [] from by
    with_unfolding_all rfl]
  exact fun h => List.noConfusion h

/-- C4 (amended): a row whose edited amount text fails `Decimal` parsing is
dropped from the accepted output, leaving the remaining rows untouched, and
`get_corrected_expenses` itself never raises; the save-time total check,
however, re-parses the cell texts unguarded, so with an expected total set a
parse failure propagates out of it as an exception. -/
theorem c4_invalid_edit_drops_row (bad : List Char) (r : String)
    (rest : List (List Char × String)) (exp : ℚ) (more : List (List Char))
    (h : parseDecimal bad = none) :
    get_corrected_expenses ((bad, r) :: rest) = get_corrected_expenses rest ∧
    check_total_match (some exp) (bad :: more) = .error () := by
  constructor
  · simp [get_corrected_expenses, h]
  · simp [check_total_match, sumCells, h]

/-- C4 witness: the amended behaviour at the concrete `"abc"` edit. -/
theorem c4_invalid_edit_drops_row_witness :
    get_corrected_expenses [("abc".data, "Lunch")] = get_corrected_expenses [] ∧
    check_total_match (some 500) ["abc".data] = .error () :=
  c4_invalid_edit_drops_row "abc".data "Lunch" [] 500 []
    (by with_unfolding_all rfl)

/-! ## C9 -/

/-- C9 counterexample: with cells 51.34 and "abc" the recomputation fails;
the code prints the error but resets the current-total label to $0.00 — the
total is reported as zero although the parseable portion sums to 51.34. -/
theorem c9_zero_total_counterexample :
    update_totals (some 500) ["51.34".data, "abc".data] = ⟨0, none, none, true⟩ ∧
    sumCells ["51.34".data] = .ok ((5134 : ℚ) / 100) ∧
    ((5134 : ℚ) / 100 ≠ 0) := by
  refine ⟨by with_unfolding_all rfl, by with_unfolding_all rfl, by norm_num⟩

/-- C9 (amended): whenever the recomputation hits a failure, the error
branch prints to the console and sets the difference label to "N/A", but the
current-total label reports $0.00 in place of the real result. -/
theorem c9_error_masks_total_as_zero (expected : Option ℚ)
    (cells : List (List Char)) (h : sumCells cells = .error ()) :
    update_totals expected cells = ⟨0, none, none, true⟩ := by
  simp [update_totals, h]

/-- C9 witness: the amended behaviour at the concrete failing cell list. -/
theorem c9_error_masks_total_as_zero_witness :
    update_totals (some 500) ["51.34".data, "abc".data] = ⟨0, none, none, true⟩ :=
  c9_error_masks_total_as_zero (some 500) ["51.34".data, "abc".data]
    (by with_unfolding_all rfl)

/-! ## C5 -/

/-- C5: extraction splits the text on line breaks and is the in-order
`filterMap` of the per-line parser (so the produced records preserve input
order and a failing line only loses itself); blank lines and lines whose
first token has no numeric prefix yield nothing; the embedding is a total
function, so no input raises; whitespace-only text gives the empty batch. -/
theorem c5_extraction_total_in_order (text : String) :
    parse_text text = (splitNl text.data).filterMap parseLine ∧
    (∀ l : List Char, pyStrip l = [] → parseLine l = none) ∧
    (∀ (l p0 : List Char) (ps : List (List Char)),
      pySplitWs l = p0 :: ps → matchAmount p0 = none → parseLine l = none) ∧
    (text.data.all pyIsSpace = true → parse_text text = []) := by
  refine ⟨parseLines_eq_filterMap _, fun l h => parseLine_of_blank h,
    fun l p0 ps hs hm => parseLine_of_no_match hs hm, fun hws => ?_⟩
  rw [parse_text, parseLines_eq_filterMap, List.filterMap_eq_nil_iff]
  intro l hl
  exact parseLine_of_blank (pyStrip_of_allWs
    (splitNlAux_allWs text.data [] (fun c hc => List.all_eq_true.mp hws c hc)
      (by simp) l hl))

/-- C5 witness: the concrete whitespace-only scenario and a blank line. -/
theorem c5_extraction_total_in_order_witness :
    parse_text "  \n\t" = [] ∧ parseLine " ".data = none :=
  ⟨(c5_extraction_total_in_order "  \n\t").2.2.2 (by decide),
    (c5_extraction_total_in_order "").2.1 " ".data (by decide)⟩

/-! ## C6 -/

/-- Inversion of the per-line parser: a produced record comes from a
non-empty token list whose first token has a numeric prefix that parses and
quantizes to the record's amount, and the record's remark is the last token
exactly when that token is non-empty, all digits and of length at most 6,
else the sentinel. -/
theorem parseLine_some_inv {line : List Char} {e : Expense}
    (h : parseLine line = some e) :
    ∃ p0 ps g v, pySplitWs line = p0 :: ps ∧ matchAmount p0 = some g ∧
      parseDecimal (removeCommas g) = some v ∧ quantize2 v = some e.amount ∧
      e.remark = (if !((p0 :: ps).getLastD []).isEmpty
            && ((p0 :: ps).getLastD []).all Char.isDigit
            && decide (((p0 :: ps).getLastD []).length ≤ 6)
          then String.mk ((p0 :: ps).getLastD []) else noRemark) := by
  unfold parseLine at h
  split at h
  · exact absurd h (by simp)
  · split at h
    · exact absurd h (by simp)
    · rename_i p0 ps hs
      split at h
      · exact absurd h (by simp)
      · rename_i g hg
        split at h
        · exact absurd h (by simp)
        · rename_i v hv
          split at h
          · exact absurd h (by simp)
          · rename_i q hq
            refine ⟨p0, ps, g, v, hs, hg, hv, ?_, ?_⟩ <;>
              cases e <;> injection h with h' <;> cases h' <;> simp [hq]

/-- C6: the remark of every produced record is the line's last
whitespace-separated token when that token is all digits with length at most
6, else the sentinel, and the amount is the quantized numeric prefix of the
first token; concretely, `"100 Lunch"` yields amount 100.00 with the
sentinel remark. -/
theorem c6_remark_resolution {line : List Char} {e : Expense}
    (h : parseLine line = some e) :
    (∃ p0 ps g v, pySplitWs line = p0 :: ps ∧ matchAmount p0 = some g ∧
      parseDecimal (removeCommas g) = some v ∧ quantize2 v = some e.amount ∧
      e.remark = (if !((p0 :: ps).getLastD []).isEmpty
            && ((p0 :: ps).getLastD []).all Char.isDigit
            && decide (((p0 :: ps).getLastD []).length ≤ 6)
          then String.mk ((p0 :: ps).getLastD []) else noRemark)) ∧
    parse_text "100 Lunch" = [⟨100, noRemark⟩] :=
  ⟨parseLine_some_inv h, by with_unfolding_all rfl⟩

/-- C6 witness: the inversion applied to the concrete line `"100 Lunch"`. -/
theorem c6_remark_resolution_witness :
    parse_text "100 Lunch" = [⟨100, noRemark⟩] :=
  (@c6_remark_resolution "100 Lunch".data ⟨100, noRemark⟩
    (by with_unfolding_all rfl)).2

/-! ## C7 -/

/-- Result of `dialog.exec()` in `_capture_screenshot`; already defined
above. C7: on acceptance the corrected records are appended to the ledger —
the prior entries survive unchanged in value and order as the prefix, and the
ledger only grows; on cancellation the ledger is exactly unchanged. -/
theorem c7_merge_appends_or_leaves (ledger : List Expense)
    (res : DialogResult) (rows : List (List Char × String)) :
    (capture_merge ledger res rows).take ledger.length = ledger ∧
    ledger.length ≤ (capture_merge ledger res rows).length ∧
    (res = .accepted →
      capture_merge ledger res rows = ledger ++ get_corrected_expenses rows) ∧
    (res = .rejected → capture_merge ledger res rows = ledger) := by
  cases res with
  | accepted =>
    refine ⟨List.take_left ledger _, by simp [capture_merge], fun _ => rfl,
      fun hr => DialogResult.noConfusion hr⟩
  | rejected =>
    refine ⟨List.take_length ledger, le_refl _,
      fun ha => DialogResult.noConfusion ha, fun _ => rfl⟩

/-! ## C8 -/

instance : DecidableRel (fun a b : Expense => a.amount ≤ b.amount) :=
  fun a b => inferInstanceAs (Decidable (a.amount ≤ b.amount))

instance : IsTotal Expense (fun a b : Expense => a.amount ≤ b.amount) :=
  ⟨fun a b => le_total a.amount b.amount⟩

instance : IsTrans Expense (fun a b : Expense => a.amount ≤ b.amount) :=
  ⟨fun _ _ _ h1 h2 => le_trans h1 h2⟩

set_option maxRecDepth 8000 in
/-- C8 counterexample: the serialised amount is `float(amount)`; for the
ledger holding the two-decimal amount 100000000000000.01 the written number
is the binary64 value 100000000000000.015625 (printed `100000000000000.02`),
not the two-decimal value, so the element does not carry two fraction digits
of resolution. -/
theorem c8_float_resolution_counterexample :
    save_json [⟨(10 ^ 16 + 1 : ℚ) / 100, "x"⟩] =
      some (.obj [("expenses", .arr [.obj
        [("amount", .num ((6400000000000001 : ℚ) / 64)),
         ("remark", .str "x")]])]) ∧
    ((6400000000000001 : ℚ) / 64 ≠ (10 ^ 16 + 1 : ℚ) / 100) := by
  refine ⟨by with_unfolding_all rfl, by norm_num⟩

/-- C8 (amended): for every non-empty ledger the persisted document is the
single top-level key `"expenses"` holding the records sorted ascending by
amount, each element an object with an `"amount"` number — the binary64
approximation of the decimal amount, which need not resolve two fraction
digits for very large amounts — and a `"remark"` string. -/
theorem c8_sorted_single_key_shape (ledger : List Expense)
    (h : ledger ≠ []) :
    ∃ s : List Expense, List.Perm s ledger ∧
      List.Sorted (fun a b : Expense => a.amount ≤ b.amount) s ∧
      save_json ledger = some (.obj [("expenses", .arr (s.map (fun e =>
        .obj [("amount", .num (floatApprox e.amount)),
              ("remark", .str e.remark)])))]) := by
  refine ⟨sortExpenses ledger,
    List.perm_insertionSort (fun a b : Expense => a.amount ≤ b.amount) ledger,
    List.sorted_insertionSort (fun a b : Expense => a.amount ≤ b.amount) ledger,
    ?_⟩
  rw [save_json, if_neg (by simpa using h)]
  rfl

/-- C8 witness: the amended shape at a concrete two-record ledger. -/
theorem c8_sorted_single_key_shape_witness :
    ∃ s : List Expense, List.Perm s [⟨2, "b"⟩, ⟨1, "a"⟩] ∧
      List.Sorted (fun a b : Expense => a.amount ≤ b.amount) s ∧
      save_json [⟨2, "b"⟩, ⟨1, "a"⟩] = some (.obj [("expenses", .arr (s.map (fun e =>
        .obj [("amount", .num (floatApprox e.amount)),
              ("remark", .str e.remark)])))]) :=
  c8_sorted_single_key_shape [⟨2, "b"⟩, ⟨1, "a"⟩] (by simp)

/-! ## C10 -/

/-- A digit is none of the special characters the cleaning and sign steps
look for. -/
theorem isDigit_facts {c : Char} (h : c.isDigit = true) :
    c ≠ '+' ∧ c ≠ '-' ∧ c ≠ ',' ∧ c ≠ '_' ∧ pyIsSpace c = false := by
  refine ⟨?_, ?_, ?_, ?_, ?_⟩
  · intro he; rw [he] at h; exact absurd h (by decide)
  · intro he; rw [he] at h; exact absurd h (by decide)
  · intro he; rw [he] at h; exact absurd h (by decide)
  · intro he; rw [he] at h; exact absurd h (by decide)
  · have h1 : c ≠ ' ' := fun he => by rw [he] at h; exact absurd h (by decide)
    have h2 : c ≠ '\t' := fun he => by rw [he] at h; exact absurd h (by decide)
    have h3 : c ≠ '\n' := fun he => by rw [he] at h; exact absurd h (by decide)
    have h4 : c ≠ '\r' := fun he => by rw [he] at h; exact absurd h (by decide)
    have h5 : c ≠ '\x0b' := fun he => by rw [he] at h; exact absurd h (by decide)
    have h6 : c ≠ '\x0c' := fun he => by rw [he] at h; exact absurd h (by decide)
    simp [pyIsSpace, h1, h2, h3, h4, h5, h6]

/-- A matched amount group starts with a digit and consists of digits and at
most one dot. -/
theorem matchAmount_chars {t g : List Char} (h : matchAmount t = some g) :
    (∃ c cs, g = c :: cs ∧ c.isDigit = true) ∧
    (∀ c ∈ g, c.isDigit = true ∨ c = '.') := by
  cases t with
  | nil => exact absurd h (by simp [matchAmount])
  | cons c0 t0 =>
    simp only [matchAmount] at h
    by_cases hd : c0.isDigit = true
    · rw [if_pos hd] at h
      have htw : (c0 :: t0).takeWhile Char.isDigit =
          c0 :: t0.takeWhile Char.isDigit := List.takeWhile_cons_of_pos hd
      have hmem : ∀ x ∈ (c0 :: t0).takeWhile Char.isDigit, x.isDigit = true :=
        fun x hx => List.all_eq_true.mp List.all_takeWhile x hx
      revert h
      split
      · intro h
        injection h with h
        subst h
        constructor
        · exact ⟨c0, _, by rw [htw, List.cons_append], hd⟩
        · intro c hc
          rcases List.mem_append.mp hc with hc | hc
          · exact Or.inl (hmem c hc)
          · rcases List.mem_cons.mp hc with hc | hc
            · exact Or.inr hc
            · exact Or.inl (List.all_eq_true.mp List.all_takeWhile c hc)
      · intro h
        injection h with h
        subst h
        exact ⟨⟨c0, _, by rw [htw], hd⟩, fun c hc => Or.inl (hmem c hc)⟩
    · rw [if_neg hd] at h
      exact absurd h (by simp)

/-- The comma/whitespace/underscore cleaning steps leave a digits-and-dot
group unchanged. -/
theorem clean_of_digit_dot {g : List Char}
    (h : ∀ c ∈ g, c.isDigit = true ∨ c = '.') :
    removeUnderscores (pyStrip (removeCommas g)) = g := by
  have hcom : removeCommas g = g := by
    rw [removeCommas, List.filter_eq_self]
    intro c hc
    rcases h c hc with hd | hd
    · exact decide_eq_true (isDigit_facts hd).2.2.1
    · exact decide_eq_true (by rw [hd]; decide)
  have hstrip : pyStrip g = g := by
    refine pyStrip_of_noWs ?_
    intro c hc
    rcases h c hc with hd | hd
    · exact (isDigit_facts hd).2.2.2.2
    · rw [hd]; decide
  have hund : removeUnderscores g = g := by
    rw [removeUnderscores, List.filter_eq_self]
    intro c hc
    rcases h c hc with hd | hd
    · exact decide_eq_true (isDigit_facts hd).2.2.2.1
    · exact decide_eq_true (by rw [hd]; decide)
  rw [hcom, hstrip, hund]

/-- Rounding to nearest keeps non-negativity. -/
theorem rhe_nonneg {x : ℚ} (h : 0 ≤ x) : 0 ≤ rhe x := by
  have hf : (0 : ℤ) ≤ ⌊x⌋ := Int.floor_nonneg.mpr h
  simp only [rhe]
  split
  · exact hf
  · split
    · omega
    · split
      · exact hf
      · omega

/-- Cent quantization keeps non-negativity. -/
theorem quantize2_nonneg {v q : ℚ} (hv : 0 ≤ v) (h : quantize2 v = some q) :
    0 ≤ q := by
  simp only [quantize2] at h
  split at h
  · injection h with h
    subst h
    have : (0 : ℤ) ≤ rhe (v * 100) := rhe_nonneg (by positivity)
    positivity
  · exact absurd h (by simp)

/-- On a group headed by a digit the core parser yields a non-negative
value. -/
theorem parseDecimalCore_nonneg {c : Char} {cs : List Char} {v : ℚ}
    (hd : c.isDigit = true) (h : parseDecimalCore (c :: cs) = some v) :
    0 ≤ v := by
  have hps : parseSign (c :: cs) = (false, c :: cs) := by
    rw [parseSign, if_neg (isDigit_facts hd).1, if_neg (isDigit_facts hd).2.1]
  simp only [parseDecimalCore, hps] at h
  split at h
  · exact absurd h (by simp)
  · split at h
    · injection h with h
      rw [← h, if_neg (by simp), one_mul]
      positivity
    · split at h
      · rcases Option.map_eq_some'.mp h with ⟨ex, _, hev⟩
        rw [← hev]
        refine mul_nonneg ?_ (zpow_nonneg (by norm_num) ex)
        rw [if_neg (by simp), one_mul]
        positivity
      · exact absurd h (by simp)

/-- Every record the OCR extractor produces has a non-negative amount. -/
theorem parseLine_amount_nonneg {l : List Char} {e : Expense}
    (h : parseLine l = some e) : 0 ≤ e.amount := by
  obtain ⟨p0, ps, g, v, _, hg, hv, hq, _⟩ := parseLine_some_inv h
  obtain ⟨⟨c, cs, hgc, hcd⟩, hchars⟩ := matchAmount_chars hg
  rw [parseDecimal, clean_of_digit_dot hchars, hgc] at hv
  exact quantize2_nonneg (parseDecimalCore_nonneg hcd hv) hq

/-- C10: the correction-path parser accepts the full `Decimal` grammar —
a leading minus sign (`"-5"`, kept as the negative record −5.00) and
exponent notation (`"1e3"`, kept as 1000.00) — so an accepted batch and
hence the ledger can contain a negative amount, while every record the OCR
extraction path produces has a non-negative amount. -/
theorem c10_correction_grammar_broader :
    get_corrected_expenses [("-5".data, "neg")] = [⟨-5, "neg"⟩] ∧
    get_corrected_expenses [("1e3".data, "r")] = [⟨1000, "r"⟩] ∧
    ((-5 : ℚ) < 0) ∧
    (∀ t : String, ∀ e ∈ parse_text t, 0 ≤ e.amount) := by
  refine ⟨by with_unfolding_all rfl, ?_, by norm_num, ?_⟩
  · set_option maxRecDepth 8000 in with_unfolding_all rfl
  · intro t e he
    rw [parse_text, parseLines_eq_filterMap] at he
    obtain ⟨l, _, hl⟩ := List.mem_filterMap.mp he
    exact parseLine_amount_nonneg hl

/-- C10 witness: non-negativity applied to the record extracted from the
concrete line `"51.34 1023"`. -/
theorem c10_correction_grammar_broader_witness :
    0 ≤ (Expense.mk ((5134 : ℚ) / 100) "1023").amount :=
  c10_correction_grammar_broader.2.2.2 "51.34 1023" ⟨(5134 : ℚ) / 100, "1023"⟩
    (by rw [show parse_text "51.34 1023" = [⟨(5134 : ℚ) / 100, "1023"⟩] from by
          set_option maxRecDepth 8000 in with_unfolding_all rfl]
        exact List.mem_singleton.mpr rfl)

/-- C7 witness: the merge contract applied to a concrete one-record ledger
for both dialog outcomes. -/
theorem c7_merge_appends_or_leaves_witness :
    capture_merge [⟨1, "a"⟩] .rejected [] = [⟨1, "a"⟩] ∧
    capture_merge [⟨1, "a"⟩] .accepted [] = [⟨1, "a"⟩] ++ get_corrected_expenses [] :=
  ⟨(c7_merge_appends_or_leaves [⟨1, "a"⟩] .rejected []).2.2.2 rfl,
   (c7_merge_appends_or_leaves [⟨1, "a"⟩] .accepted []).2.2.1 rfl⟩
